import Mathlib

set_option maxRecDepth 4000

/-!
Shallow embedding of the mrml component-tree parser and rendering pipeline.

The four source files of the repository are `src/lib.rs` (public entry
points and `Options`), `elements/mjml.rs` (the root element parser and
`get_html`), `elements/head/mj_breakpoint.rs` (breakpoint head element) and
`elements/body/mj_column/parser.rs` (the column parser with its attribute
cascade).  The supporting machinery (the `Attributes` store, the `Header`
rendering context, `MJHead`, `MJBody`, the tokenizer and the generic parser
driver) is not part of the snapshot; those definitions are modelled from the
specification and carry a doc comment saying so.
-/

/-- Option fallback used to state the cascade contract: the first value when
present, otherwise the second. -/
def orElseO (a b : Option String) : Option String :=
  match a with
  | some v => some v
  | none => b

/-- Size values for breakpoints and widths.  Modelled from the spec: unit
parsing is an excluded collaborator producing pixel or percent literals. -/
inductive Size where
  | pixel (value : Nat)
  | percent (value : Nat)
  deriving DecidableEq, Repr

def charDigit? (c : Char) : Option Nat :=
  if c.isDigit then some (c.toNat - 48) else none

def digitsVal (cs : List Char) : Option Nat :=
  if cs.isEmpty then none
  else cs.foldl (fun acc c =>
    match acc, charDigit? c with
    | some n, some d => some (n * 10 + d)
    | _, _ => none) (some 0)

/-- Modelled from the spec: parse a size literal such as "600px" or "50%";
anything else fails. -/
def Size.parse (s : String) : Option Size :=
  match s.toList.reverse with
  | 'x' :: 'p' :: rest => (digitsVal rest.reverse).map Size.pixel
  | '%' :: rest => (digitsVal rest.reverse).map Size.percent
  | _ => none

def Size.toText : Size → String
  | .pixel v => Nat.repr v ++ "px"
  | .percent v => Nat.repr v ++ "%"

/-- Modelled from the spec: the ordered attribute mapping with unique,
case-sensitive keys. -/
abbrev Attributes := List (String × String)

def Attributes.empty : Attributes := []

def Attributes.get (a : Attributes) (key : String) : Option String :=
  match a with
  | [] => none
  | p :: rest => if p.1 = key then some p.2 else Attributes.get rest key

/-- Modelled from the spec: last write wins and insertion order is kept. -/
def Attributes.set (a : Attributes) (key value : String) : Attributes :=
  match a with
  | [] => [(key, value)]
  | p :: rest =>
    if p.1 = key then (key, value) :: rest
    else p :: Attributes.set rest key value

def Attributes.add (a : Attributes) (key value : String) : Attributes :=
  Attributes.set a key value

/-- Modelled from the spec: entries of the second mapping overwrite or extend
the first, the second taking precedence on overlapping keys. -/
def Attributes.merge (a b : Attributes) : Attributes :=
  match b with
  | [] => a
  | p :: rest => Attributes.merge (Attributes.set a p.1 p.2) rest

/-- The keys of an attribute store are pairwise distinct.  Every store the
program builds (always through `set`) satisfies this. -/
def UniqueKeys (a : Attributes) : Prop :=
  (a.map Prod.fst).Nodup

instance (a : Attributes) : Decidable (UniqueKeys a) :=
  inferInstanceAs (Decidable ((a.map Prod.fst).Nodup))

def lookupTag : List (String × Attributes) → String → Attributes
  | [], _ => []
  | p :: rest, tag => if p.1 = tag then p.2 else lookupTag rest tag

/-- Modelled from the spec: per-tag-name attribute overrides held by the
rendering context (populated by a head-level set-defaults directive). -/
structure DefaultAttributes where
  elements : List (String × Attributes)
  deriving Repr

def DefaultAttributes.forTag (d : DefaultAttributes) (tag : String) : Attributes :=
  lookupTag d.elements tag

/-- Modelled from the spec: the combined default and per-tag-context merge
that also folds in the locally declared attributes once. -/
def DefaultAttributes.concat_attributes (d : DefaultAttributes) (name : String)
    (defaults attributes : Attributes) : Attributes :=
  Attributes.merge (Attributes.merge defaults (DefaultAttributes.forTag d name)) attributes

structure FontRegistry where
  fonts : List (String × String)
  deriving Repr

def FontRegistry.default : FontRegistry := ⟨[]⟩

/-- Global renderer options, from `src/lib.rs`. -/
structure Options where
  breakpoint : Size
  fonts : FontRegistry
  keep_comments : Bool
  deriving Repr

/-- Default options, from `src/lib.rs`: a 480px breakpoint, the default font
registry, comments kept. -/
def Options.default : Options := ⟨Size.pixel 480, FontRegistry.default, true⟩

/-- Parser-level options, from `src/lib.rs` (`Into<parser::Options>`). -/
structure ParserOptions where
  keep_comments : Bool
  deriving Repr

def Options.into_parser (o : Options) : ParserOptions := ⟨o.keep_comments⟩

/-- The rendering context.  Modelled from the spec: breakpoint, fonts,
per-tag default attribute overrides, accumulated title and preview, and the
parse-time comment-retention flag threaded down to child parsers. -/
structure Header where
  breakpoint : Size
  fonts : FontRegistry
  default_attributes : DefaultAttributes
  title : Option String
  preview : Option String
  keep_comments : Bool
  deriving Repr

def Header.new (o : Options) : Header :=
  ⟨o.breakpoint, o.fonts, ⟨[]⟩, none, none, o.keep_comments⟩

def Header.set_breakpoint (h : Header) (s : Size) : Header :=
  { h with breakpoint := s }

def Header.set_title (h : Header) (t : String) : Header :=
  { h with title := some t }

def Header.set_preview (h : Header) (t : String) : Header :=
  { h with preview := some t }

/-- Errors raised by parsing, from `elements/error.rs` as used by the four
source files (`UnexpectedElement`, `InvalidChild`); `unexpectedEnd` stands for
the underlying tokenizer failing or running out of tokens, and
`fuelExhausted` is an artifact of the fueled embedding. -/
inductive Error where
  | unexpectedElement (tag : String)
  | invalidChild
  | unexpectedEnd
  | fuelExhausted
  deriving DecidableEq, Repr

/-- Structural tokens produced by the excluded tokenizer: element start with
tag name, attribute, end of the start tag (">" or "/>"), closing tag, text
and comment. -/
inductive Token where
  | elementStart (tag : String)
  | attr (name value : String)
  | elementEndOpen
  | elementEndEmpty
  | elementEndClose (tag : String)
  | text (value : String)
  | comment (value : String)
  deriving DecidableEq, Repr

/-- A node handed to head-element parsers: tag, raw attributes and text
children, mirroring `crate::parser::Node` used by `mj_breakpoint.rs`. -/
structure Node where
  tag : String
  attributes : List (String × String)
  texts : List String
  deriving Repr

structure MJBreakpoint where
  value : Option Size
  deriving DecidableEq, Repr

/-- The width lookup of `MJBreakpoint::parse`: find the first "width"
attribute and keep its value only when it parses as a size. -/
def widthAttribute (attrs : List (String × String)) : Option Size :=
  match attrs with
  | [] => none
  | p :: rest => if p.1 = "width" then Size.parse p.2 else widthAttribute rest

/-- From `elements/head/mj_breakpoint.rs`: always returns Ok, with a value
only when a "width" attribute parses as a size. -/
def MJBreakpoint.parse (node : Node) : Except Error MJBreakpoint :=
  .ok ⟨widthAttribute node.attributes⟩

/-- From `elements/head/mj_breakpoint.rs`: sets the context breakpoint only
when a value was parsed. -/
def MJBreakpoint.update_header (b : MJBreakpoint) (h : Header) : Header :=
  match b.value with
  | some v => Header.set_breakpoint h v
  | none => h

inductive HeadElement where
  | breakpoint (b : MJBreakpoint)
  | title (content : String)
  | preview (content : String)
  deriving Repr

/-- Modelled from the spec: head-element dispatch over the node tag; unknown
tags are a hard error. -/
def HeadElement.parse (node : Node) : Except Error HeadElement :=
  if node.tag = "mj-breakpoint" then (MJBreakpoint.parse node).map HeadElement.breakpoint
  else if node.tag = "mj-title" then .ok (HeadElement.title (String.join node.texts))
  else if node.tag = "mj-preview" then .ok (HeadElement.preview (String.join node.texts))
  else .error (Error.unexpectedElement node.tag)

/-- Modelled from the spec: each head element mutates the shared context
(breakpoint, title, preview). -/
def HeadElement.update_header : HeadElement → Header → Header
  | .breakpoint b, h => MJBreakpoint.update_header b h
  | .title s, h => Header.set_title h s
  | .preview s, h => Header.set_preview h s

/-- The head subtree: the finalized context plus the head children.
Modelled from the spec (`MJHead` is not in the snapshot). -/
structure MJHead where
  header : Header
  children : List HeadElement
  deriving Repr

def MJHead.empty (o : Options) : MJHead := ⟨Header.new o, []⟩

def MJHead.get_header (h : MJHead) : Header := h.header

def MJHead.get_title (h : MJHead) : String := h.header.title.getD ""

def MJHead.get_preview (h : MJHead) : String := h.header.preview.getD ""

/-- Modelled from the spec: the positional layout context a parent assigns to
a node before rendering; distinct from the document-wide context. -/
structure Context where
  container_width : Option Size
  siblings : Nat
  index : Nat
  deriving Repr

def Context.default : Context := ⟨none, 1, 0⟩

/-- Body-side component nodes: columns, comment leaves and text leaves. -/
inductive BodyElement where
  | column (attributes : Attributes) (context : Option Context) (children : List BodyElement)
  | comment (value : String)
  | text (value : String)
  deriving Repr

/-- Hardcoded kind defaults of the column, from `mj_column/parser.rs`. -/
def DEFAULT_ATTRIBUTES : Attributes :=
  Attributes.add (Attributes.add Attributes.empty "direction" "ltr") "vertical-align" "top"

/-- The cascade resolution of `MJMLParser::build` for `MJColumnParser`: the
combined default, per-tag-context and local merge, then the extra attributes
pushed by the parent, then the local attributes once more. -/
def MJColumnParser.buildAttributes (header : Header) (extra : Option Attributes)
    (attributes : Attributes) : Attributes :=
  let merged := DefaultAttributes.concat_attributes header.default_attributes
    "mj-column" DEFAULT_ATTRIBUTES attributes
  let merged :=
    match extra with
    | some e => Attributes.merge merged e
    | none => merged
  Attributes.merge merged attributes

/-- From `mj_column/parser.rs`: build the immutable column node. -/
def MJColumnParser.build (header : Header) (extra : Option Attributes)
    (attributes : Attributes) (children : List BodyElement) : BodyElement :=
  BodyElement.column (MJColumnParser.buildAttributes header extra attributes) none children

/-- Fold raw attribute tokens into a store, one `set` per token in document
order, as the `parse_attribute` hook does. -/
def attrsFromList (l : List (String × String)) : Attributes :=
  l.foldl (fun a p => Attributes.set a p.1 p.2) Attributes.empty

/-- Modelled from the spec: the driver reads attribute tokens until the start
tag ends, either self-closing ("/>", no children) or open (">"). -/
def parseAttributes : List Token → Except Error (List (String × String) × Bool × List Token)
  | [] => .error Error.unexpectedEnd
  | Token.attr n v :: rest =>
    (parseAttributes rest).map (fun r => ((n, v) :: r.1, r.2.1, r.2.2))
  | Token.elementEndOpen :: rest => .ok ([], true, rest)
  | Token.elementEndEmpty :: rest => .ok ([], false, rest)
  | _ :: _ => .error Error.invalidChild

/-- Modelled from the spec: the text content of a leaf head element, read up
to its closing tag. -/
def parseNodeTexts : List Token → Except Error (List String × List Token)
  | [] => .error Error.unexpectedEnd
  | Token.elementEndClose _ :: rest => .ok ([], rest)
  | Token.text s :: rest => (parseNodeTexts rest).map (fun r => (s :: r.1, r.2))
  | Token.comment _ :: rest => parseNodeTexts rest
  | _ :: _ => .error Error.invalidChild

/-- Modelled from the spec: a head child is read into a leaf node carrying
its tag, attributes and text content. -/
def parseNode (tag : String) (ts : List Token) : Except Error (Node × List Token) := do
  let (attrs, hasChildren, ts) ← parseAttributes ts
  if hasChildren then
    let (texts, ts) ← parseNodeTexts ts
    .ok (⟨tag, attrs, texts⟩, ts)
  else
    .ok (⟨tag, attrs, []⟩, ts)

/-- Modelled from the spec: the head children are parsed in document order;
whitespace text and comments between them are skipped. -/
def parseHeadChildren (fuel : Nat) (ts : List Token) :
    Except Error (List HeadElement × List Token) :=
  match fuel with
  | 0 => .error Error.fuelExhausted
  | f + 1 =>
    match ts with
    | [] => .error Error.unexpectedEnd
    | Token.elementEndClose _ :: rest => .ok ([], rest)
    | Token.text _ :: rest => parseHeadChildren f rest
    | Token.comment _ :: rest => parseHeadChildren f rest
    | Token.elementStart t :: rest => do
      let (node, ts) ← parseNode t rest
      let el ← HeadElement.parse node
      let (els, ts) ← parseHeadChildren f ts
      .ok (el :: els, ts)
    | _ :: _ => .error Error.invalidChild

/-- Modelled from the spec: `MJHead::parse` collects the head children and
applies every context mutation in document order before returning, so all
mutations are complete when the head subtree is handed back. -/
def MJHead.parse (fuel : Nat) (ts : List Token) (opts : Options) :
    Except Error (MJHead × List Token) := do
  let (_, hasChildren, ts) ← parseAttributes ts
  if hasChildren then
    let (children, ts) ← parseHeadChildren fuel ts
    .ok (⟨children.foldl (fun h c => HeadElement.update_header c h) (Header.new opts),
          children⟩, ts)
  else
    .ok (MJHead.empty opts, ts)

/-- The body subtree.  Modelled from the spec (`MJBody` is not in the
snapshot): attributes, children and the layout context assigned at build. -/
structure MJBody where
  attributes : Attributes
  children : List BodyElement
  context : Option Context
  deriving Repr

def MJBody.empty : MJBody := ⟨Attributes.empty, [], none⟩

def MJBody.set_context (b : MJBody) (c : Context) : MJBody :=
  { b with context := some c }

/-- Modelled from the spec: registers the fonts used inside the body into the
context font registry; none of the fields modelled here (breakpoint, default
attributes, title, preview, comment flag) are touched. -/
def MJBody.update_header (_b : MJBody) (h : Header) : Header := h

mutual

/-- Modelled from the spec: the body-element dispatch table; a tag absent
from the table is a hard error. -/
def parseBodyElement (fuel : Nat) (tag : String) (header : Header)
    (extra : Option Attributes) (ts : List Token) :
    Except Error (BodyElement × List Token) :=
  match fuel with
  | 0 => .error Error.fuelExhausted
  | f + 1 =>
    if tag = "mj-column" then parseColumn f header extra ts
    else .error (Error.unexpectedElement tag)

/-- Column parsing, mirroring `MJColumnParser`: hooks collect attributes and
children, `build` resolves the cascade. -/
def parseColumn (fuel : Nat) (header : Header) (extra : Option Attributes)
    (ts : List Token) : Except Error (BodyElement × List Token) :=
  match fuel with
  | 0 => .error Error.fuelExhausted
  | f + 1 => do
    let (raw, hasChildren, ts) ← parseAttributes ts
    if hasChildren then
      let (children, ts) ← parseBodyChildren f header ts
      .ok (MJColumnParser.build header extra (attrsFromList raw) children, ts)
    else
      .ok (MJColumnParser.build header extra (attrsFromList raw) [], ts)

/-- Modelled from the spec: the child loop of a body container.  Text leaves
are appended; a comment is appended only when the parse-time comment flag is
set, so the option is checked before the comment reaches the tree; nested
elements go through the dispatch table with no extra attributes. -/
def parseBodyChildren (fuel : Nat) (header : Header) (ts : List Token) :
    Except Error (List BodyElement × List Token) :=
  match fuel with
  | 0 => .error Error.fuelExhausted
  | f + 1 =>
    match ts with
    | [] => .error Error.unexpectedEnd
    | Token.elementEndClose _ :: rest => .ok ([], rest)
    | Token.text s :: rest =>
      (parseBodyChildren f header rest).map (fun r => (BodyElement.text s :: r.1, r.2))
    | Token.comment s :: rest =>
      if header.keep_comments then
        (parseBodyChildren f header rest).map (fun r => (BodyElement.comment s :: r.1, r.2))
      else
        parseBodyChildren f header rest
    | Token.elementStart t :: rest => do
      let (el, ts) ← parseBodyElement f t header none rest
      let (els, ts) ← parseBodyChildren f header ts
      .ok (el :: els, ts)
    | _ :: _ => .error Error.invalidChild

end

/-- Modelled from the spec: `MJBody::parse` reads the body attributes and
children against the header produced by head parsing. -/
def MJBody.parse (fuel : Nat) (ts : List Token) (header : Header) :
    Except Error (MJBody × List Token) :=
  match fuel with
  | 0 => .error Error.fuelExhausted
  | f + 1 => do
    let (raw, hasChildren, ts) ← parseAttributes ts
    if hasChildren then
      let (children, ts) ← parseBodyChildren f header ts
      .ok (⟨attrsFromList raw, children, none⟩, ts)
    else
      .ok (⟨attrsFromList raw, [], none⟩, ts)

/-- The document root, from `elements/mjml.rs`: exactly one head subtree and
one body subtree. -/
structure MJMLElement where
  context : Option Context
  head : MJHead
  body : MJBody
  deriving Repr

/-- From `elements/mjml.rs` (`MJMLParser::build`): the body defaults to the
empty subtree when absent, receives the default layout context, and registers
its fonts into the head context. -/
def MJMLElementParser.build (head : MJHead) (body : Option MJBody) : MJMLElement :=
  let b := MJBody.set_context (body.getD MJBody.empty) Context.default
  let header := MJBody.update_header b head.header
  { context := none, head := { head with header := header }, body := b }

/-- From `elements/mjml.rs` (`parse_child_element`): the direct children of
the root dispatch on "mj-head" and "mj-body"; any other tag is
`UnexpectedElement`.  Comments at the root are ignored.  The body is parsed
against the header of the head parsed so far. -/
def parseMjmlChildren (fuel : Nat) (opts : Options) (head : MJHead)
    (body : Option MJBody) (ts : List Token) :
    Except Error (MJHead × Option MJBody × List Token) :=
  match fuel with
  | 0 => .error Error.fuelExhausted
  | f + 1 =>
    match ts with
    | [] => .error Error.unexpectedEnd
    | Token.elementEndClose _ :: rest => .ok (head, body, rest)
    | Token.comment _ :: rest => parseMjmlChildren f opts head body rest
    | Token.text _ :: rest => parseMjmlChildren f opts head body rest
    | Token.elementStart t :: rest =>
      if t = "mj-head" then
        match MJHead.parse f rest opts with
        | .ok (h, ts) => parseMjmlChildren f opts h body ts
        | .error e => .error e
      else if t = "mj-body" then
        match MJBody.parse f rest (MJHead.get_header head) with
        | .ok (b, ts) => parseMjmlChildren f opts head (some b) ts
        | .error e => .error e
      else .error (Error.unexpectedElement t)
    | _ :: _ => .error Error.invalidChild

/-- From `elements/mjml.rs` (`MJMLElement::parse`): run the child loop and
build the document. -/
def MJMLElement.parse (fuel : Nat) (ts : List Token) (opts : Options) :
    Except Error (MJMLElement × List Token) := do
  let (_, hasChildren, ts) ← parseAttributes ts
  if hasChildren then
    let (head, body, ts) ← parseMjmlChildren fuel opts (MJHead.empty opts) none ts
    .ok (MJMLElementParser.build head body, ts)
  else
    .ok (MJMLElementParser.build (MJHead.empty opts) none, ts)

/-- From `elements/mjml.rs` (`MJMLElement::parse_root`): the first token must
be an element start named "mjml"; any other tag is `UnexpectedElement`, a
non-element token is `InvalidChild`, and a failing or exhausted tokenizer is
an error. -/
def MJMLElement.parse_root (fuel : Nat) (ts : List Token) (opts : Options) :
    Except Error MJMLElement :=
  match ts with
  | [] => .error Error.unexpectedEnd
  | Token.elementStart t :: rest =>
    if t = "mjml" then (MJMLElement.parse fuel rest opts).map Prod.fst
    else .error (Error.unexpectedElement t)
  | _ :: _ => .error Error.invalidChild

def MJMLElement.get_title (d : MJMLElement) : String :=
  MJHead.get_title d.head

def MJMLElement.get_preview (d : MJMLElement) : String :=
  MJHead.get_preview d.head

/-- Modelled from the spec: the media query emitted by the head render is
keyed to the context breakpoint. -/
def mediaQueryCss (h : Header) : String :=
  "@media only screen and (min-width:" ++ Size.toText h.breakpoint ++
    ") \x7b .mj-column-per-100 \x7b width:100% !important; \x7d \x7d"

/-- Modelled from the spec: the head renders the accumulated title and the
breakpoint-keyed style block. -/
def headHtml (h : Header) : String :=
  "<head><title>" ++ h.title.getD "" ++ "</title><style type=\"text/css\">" ++
    mediaQueryCss h ++ "</style></head>"

/-- Head rendering takes the context by shared reference in the source, so it
returns the context it was given. -/
def MJHead.render (_self : MJHead) (h : Header) : Except Error (String × Header) :=
  .ok (headHtml h, h)

mutual

/-- Modelled from the spec: leaves render directly, a column wraps the
concatenation of its children.  The context is received by shared reference
in the source, so every case hands back the context it received. -/
def BodyElement.render (h : Header) : BodyElement → Except Error (String × Header)
  | BodyElement.comment s => .ok ("<!--" ++ s ++ "-->", h)
  | BodyElement.text s => .ok (s, h)
  | BodyElement.column _attrs _ctx children =>
    match renderChildren h children with
    | .ok (inner, h2) => .ok ("<div class=\"mj-column-per-100\">" ++ inner ++ "</div>", h2)
    | .error e => .error e

/-- Children render left to right, each receiving the context produced by the
previous sibling. -/
def renderChildren (h : Header) : List BodyElement → Except Error (String × Header)
  | [] => .ok ("", h)
  | c :: rest =>
    match BodyElement.render h c with
    | .ok (s, h2) =>
      match renderChildren h2 rest with
      | .ok (s2, h3) => .ok (s ++ s2, h3)
      | .error e => .error e
    | .error e => .error e

end

/-- Modelled from the spec: the body wraps its rendered children. -/
def MJBody.render (self : MJBody) (h : Header) : Except Error (String × Header) :=
  match renderChildren h self.children with
  | .ok (inner, h2) => .ok ("<body><div class=\"mj-body\">" ++ inner ++ "</div></body>", h2)
  | .error e => .error e

/-- From `elements/mjml.rs` (`MJMLElement::get_html`): the document renders
the doctype, the html open tag, the head and the body, both against the head
context, then closes.  The pair also carries the context coming out of the
render pass. -/
def MJMLElement.get_html (self : MJMLElement) : Except Error (String × Header) :=
  match MJHead.render self.head (MJHead.get_header self.head) with
  | .ok (hd, header2) =>
    match MJBody.render self.body header2 with
    | .ok (bd, header3) =>
      .ok ("<!doctype html>" ++
        "<html xmlns=\"http://www.w3.org/1999/xhtml\" xmlns:v=\"urn:schemas-microsoft-com:vml\" xmlns:o=\"urn:schemas-microsoft-com:office:office\">" ++
        hd ++ bd ++ "</html>", header3)
    | .error e => .error e
  | .error e => .error e

def defaultFuel (ts : List Token) : Nat := ts.length + 8

/-- From `src/lib.rs`: the public parse entry point. -/
def parse (ts : List Token) (options : Options) : Except Error MJMLElement :=
  MJMLElement.parse_root (defaultFuel ts) ts options

/-- From `src/lib.rs`: parse then read the title. -/
def to_title (ts : List Token) (options : Options) : Except Error String :=
  (parse ts options).map MJMLElement.get_title

/-- From `src/lib.rs`: parse then read the preview. -/
def to_preview (ts : List Token) (options : Options) : Except Error String :=
  (parse ts options).map MJMLElement.get_preview

/-- From `src/lib.rs`: parse then render. -/
def to_html (ts : List Token) (options : Options) : Except Error String := do
  let el ← parse ts options
  let (html, _) ← MJMLElement.get_html el
  .ok html

def listContainsSub (hay needle : List Char) : Bool :=
  (List.range (hay.length + 1)).any (fun i => needle.isPrefixOf (hay.drop i))

def strContains (hay needle : String) : Bool :=
  listContainsSub hay.toList needle.toList

/-- Tokens of the breakpoint scenario markup
`<mjml><mj-head><mj-breakpoint width="600px"/></mj-head><mj-body><mj-column/></mj-body></mjml>`. -/
def breakpointDocTokens : List Token :=
  [Token.elementStart "mjml", Token.elementEndOpen,
   Token.elementStart "mj-head", Token.elementEndOpen,
   Token.elementStart "mj-breakpoint", Token.attr "width" "600px", Token.elementEndEmpty,
   Token.elementEndClose "mj-head",
   Token.elementStart "mj-body", Token.elementEndOpen,
   Token.elementStart "mj-column", Token.elementEndEmpty,
   Token.elementEndClose "mj-body",
   Token.elementEndClose "mjml"]

/-- Tokens of `<mjml><mj-head><mj-title>Hello</mj-title></mj-head></mjml>`. -/
def titleDocTokens : List Token :=
  [Token.elementStart "mjml", Token.elementEndOpen,
   Token.elementStart "mj-head", Token.elementEndOpen,
   Token.elementStart "mj-title", Token.elementEndOpen,
   Token.text "Hello", Token.elementEndClose "mj-title",
   Token.elementEndClose "mj-head",
   Token.elementEndClose "mjml"]

/-- Modelled from the spec: for the unterminated input `<mjml` the excluded
tokenizer produces the element start and then fails; the stream ends there. -/
def unterminatedTokens : List Token :=
  [Token.elementStart "mjml"]

/-- Tokens of `<mjml></mjml>`. -/
def emptyDocTokens : List Token :=
  [Token.elementStart "mjml", Token.elementEndOpen, Token.elementEndClose "mjml"]

/-- Tokens of `<mjml><mj-body><mj-column><!-- note --></mj-column></mj-body></mjml>`. -/
def commentDocTokens : List Token :=
  [Token.elementStart "mjml", Token.elementEndOpen,
   Token.elementStart "mj-body", Token.elementEndOpen,
   Token.elementStart "mj-column", Token.elementEndOpen,
   Token.comment " note ",
   Token.elementEndClose "mj-column",
   Token.elementEndClose "mj-body",
   Token.elementEndClose "mjml"]

def commentsOff : Options :=
  { Options.default with keep_comments := false }

/-- The extra attribute layer as a store: absent means the empty store. -/
def extraOf : Option Attributes → Attributes
  | some e => e
  | none => Attributes.empty

/-- The single column at the top of the body, when the body has exactly one. -/
def firstColumnChildren (d : MJMLElement) : Option (List BodyElement) :=
  match d.body.children with
  | [BodyElement.column _ _ cs] => some cs
  | _ => none

/-- A context carrying a per-tag override for mj-column, for exercising the
cascade. -/
def cascadeHeaderSample : Header :=
  { Header.new Options.default with
    default_attributes := ⟨[("mj-column", [("width", "10px"), ("direction", "rtl")])]⟩ }

/-- The document built from `<mjml></mjml>`. -/
def emptyDoc : MJMLElement :=
  MJMLElementParser.build (MJHead.empty Options.default) none

/-- The html rendered for the empty document. -/
def emptyDocHtml : String :=
  "<!doctype html><html xmlns=\"http://www.w3.org/1999/xhtml\" xmlns:v=\"urn:schemas-microsoft-com:vml\" xmlns:o=\"urn:schemas-microsoft-com:office:office\"><head><title></title><style type=\"text/css\">@media only screen and (min-width:480px) \x7b .mj-column-per-100 \x7b width:100% !important; \x7d \x7d</style></head><body><div class=\"mj-body\"></div></body></html>"

/-- Head segment, for the ordering witness: the rest of the mj-head element,
followed by the body section and the root close. -/
def orderingHeadTokens : List Token :=
  [Token.elementEndOpen,
   Token.elementStart "mj-breakpoint", Token.attr "width" "600px", Token.elementEndEmpty,
   Token.elementEndClose "mj-head",
   Token.elementStart "mj-body", Token.elementEndOpen, Token.elementEndClose "mj-body",
   Token.elementEndClose "mjml"]

def orderingBodyTokens : List Token :=
  [Token.elementEndOpen, Token.elementEndClose "mj-body", Token.elementEndClose "mjml"]

/-- The header after the head mutations of the ordering witness. -/
def orderingHeader : Header :=
  { breakpoint := Size.pixel 600, fonts := ⟨[]⟩, default_attributes := ⟨[]⟩,
    title := none, preview := none, keep_comments := true }

def orderingHead : MJHead :=
  ⟨orderingHeader, [HeadElement.breakpoint ⟨some (Size.pixel 600)⟩]⟩

def orderingBody : MJBody := ⟨Attributes.empty, [], none⟩

theorem Attributes.get_set (a : Attributes) (k v q : String) :
    Attributes.get (Attributes.set a k v) q = if q = k then some v else Attributes.get a q := by
  induction a with
  | nil =>
    by_cases h : q = k
    · subst h; simp [Attributes.set, Attributes.get]
    · simp [Attributes.set, Attributes.get, h, Ne.symm h]
  | cons p rest ih =>
    by_cases hp : p.1 = k
    · by_cases hq : q = k
      · subst hq
        simp [Attributes.set, Attributes.get, hp]
      · simp [Attributes.set, Attributes.get, hp, hq, Ne.symm hq]
    · simp only [Attributes.set, if_neg hp, Attributes.get]
      by_cases hpq : p.1 = q
      · have hq : ¬ q = k := fun hh => hp (by rw [hpq, hh])
        simp [hpq, hq]
      · simp [hpq, ih]

theorem Attributes.get_eq_none (a : Attributes) (k : String) (h : k ∉ a.map Prod.fst) :
    Attributes.get a k = none := by
  induction a with
  | nil => rfl
  | cons p rest ih =>
    simp only [List.map_cons, List.mem_cons, not_or] at h
    simp [Attributes.get, Ne.symm h.1, ih h.2]

theorem Attributes.get_merge (b : Attributes) (hb : UniqueKeys b) (a : Attributes)
    (k : String) :
    Attributes.get (Attributes.merge a b) k = orElseO (Attributes.get b k) (Attributes.get a k) := by
  induction b generalizing a with
  | nil => simp [Attributes.merge, Attributes.get, orElseO]
  | cons p rest ih =>
    rw [UniqueKeys, List.map_cons, List.nodup_cons] at hb
    obtain ⟨hnm, hnd⟩ := hb
    rw [Attributes.merge, ih hnd, Attributes.get_set]
    by_cases hk : k = p.1
    · subst hk
      rw [Attributes.get_eq_none rest p.1 hnm]
      simp [Attributes.get, orElseO]
    · rw [if_neg hk]
      simp [Attributes.get, Ne.symm hk]

/-- C1: attribute cascade precedence for mj-column.  For an attribute name
with hardcoded kind default d, context-level per-tag override c, inherited
extra value e and local declaration l, the resolved value in the built store
is l when present, else e, else c, else d, and absent when all four layers
miss. -/
theorem mj_column_cascade (header : Header) (extra : Option Attributes)
    (attributes : Attributes) (name : String)
    (hl : UniqueKeys attributes)
    (hc : UniqueKeys (DefaultAttributes.forTag header.default_attributes "mj-column"))
    (he : UniqueKeys (extraOf extra)) :
    Attributes.get (MJColumnParser.buildAttributes header extra attributes) name =
      orElseO (Attributes.get attributes name)
        (orElseO (Attributes.get (extraOf extra) name)
          (orElseO (Attributes.get (DefaultAttributes.forTag header.default_attributes "mj-column") name)
            (Attributes.get DEFAULT_ATTRIBUTES name))) := by
  simp only [MJColumnParser.buildAttributes, DefaultAttributes.concat_attributes]
  cases extra with
  | none =>
    rw [Attributes.get_merge attributes hl, Attributes.get_merge attributes hl,
        Attributes.get_merge _ hc]
    cases hL : Attributes.get attributes name <;>
      simp [orElseO, extraOf, Attributes.get, Attributes.empty]
  | some e =>
    simp only [extraOf] at he
    rw [Attributes.get_merge attributes hl, Attributes.get_merge e he,
        Attributes.get_merge attributes hl, Attributes.get_merge _ hc]
    cases hL : Attributes.get attributes name <;> simp [orElseO, extraOf]

theorem mj_column_cascade_witness :
    Attributes.get (MJColumnParser.buildAttributes cascadeHeaderSample
        (some [("width", "20px"), ("pad", "1")]) [("width", "30px")]) "width" = some "30px" := by
  have h := mj_column_cascade cascadeHeaderSample (some [("width", "20px"), ("pad", "1")])
    [("width", "30px")] "width" (by decide) (by decide) (by decide)
  rw [h]
  rfl

/-- C2: unknown tag rejection.  A root tag other than "mjml" fails with the
unexpected-element error naming that tag, and a direct child of the root
other than mj-head or mj-body fails the same way; in both cases the result
is an error, never a document. -/
theorem unknown_tag_rejection (fuel : Nat) (opts : Options) (t : String)
    (rest : List Token) (head : MJHead) (body : Option MJBody)
    (hroot : t ≠ "mjml") (hhead : t ≠ "mj-head") (hbody : t ≠ "mj-body") :
    MJMLElement.parse_root fuel (Token.elementStart t :: rest) opts
        = .error (Error.unexpectedElement t)
    ∧ parseMjmlChildren (fuel + 1) opts head body (Token.elementStart t :: rest)
        = .error (Error.unexpectedElement t) := by
  constructor
  · simp only [MJMLElement.parse_root, if_neg hroot]
  · simp only [parseMjmlChildren, if_neg hhead, if_neg hbody]

theorem unknown_tag_rejection_witness :
    MJMLElement.parse_root 5 [Token.elementStart "mj-foo"] Options.default
        = .error (Error.unexpectedElement "mj-foo")
    ∧ parseMjmlChildren 6 Options.default (MJHead.empty Options.default) none
        [Token.elementStart "mj-foo"] = .error (Error.unexpectedElement "mj-foo") :=
  unknown_tag_rejection 5 Options.default "mj-foo" [] (MJHead.empty Options.default) none
    (by decide) (by decide) (by decide)

/-- C3: head-before-body ordering.  When the mj-head child completes with
head H and the mj-body child follows, the body subtree is parsed against the
header already holding every head mutation, the root child loop continues
from there, and the built document renders both subtrees against that same
finalized header. -/
theorem head_before_body (f : Nat) (opts : Options) (head0 : MJHead)
    (ts1 ts2 ts3 : List Token) (H : MJHead) (B : MJBody)
    (hH : MJHead.parse (f + 1) ts1 opts = .ok (H, Token.elementStart "mj-body" :: ts2))
    (hB : MJBody.parse f ts2 (MJHead.get_header H) = .ok (B, ts3)) :
    parseMjmlChildren (f + 2) opts head0 none (Token.elementStart "mj-head" :: ts1)
        = parseMjmlChildren f opts H (some B) ts3
    ∧ MJHead.get_header (MJMLElementParser.build H (some B)).head = MJHead.get_header H
    ∧ (MJMLElementParser.build H (some B)).body.children = B.children := by
  refine ⟨?_, rfl, rfl⟩
  simp [parseMjmlChildren, hH, hB]

theorem head_before_body_witness :
    parseMjmlChildren 8 Options.default (MJHead.empty Options.default) none
        (Token.elementStart "mj-head" :: orderingHeadTokens)
        = parseMjmlChildren 6 Options.default orderingHead (some orderingBody)
            [Token.elementEndClose "mjml"]
    ∧ MJHead.get_header (MJMLElementParser.build orderingHead (some orderingBody)).head
        = MJHead.get_header orderingHead
    ∧ (MJMLElementParser.build orderingHead (some orderingBody)).body.children
        = orderingBody.children :=
  head_before_body 6 Options.default (MJHead.empty Options.default)
    orderingHeadTokens orderingBodyTokens [Token.elementEndClose "mjml"]
    orderingHead orderingBody (by rfl) (by rfl)

/-- C4: breakpoint scenario.  Parsing the breakpoint document with the
default options sets the context breakpoint to 600px, and the generated html
carries a 600px media-query threshold and no 480px one. -/
theorem breakpoint_scenario :
    (parse breakpointDocTokens Options.default).map
        (fun d => (MJHead.get_header d.head).breakpoint) = .ok (Size.pixel 600)
    ∧ (to_html breakpointDocTokens Options.default).map
        (fun s => (strContains s "min-width:600px", strContains s "480px"))
      = .ok (true, false) :=
  ⟨rfl, rfl⟩

/-- C5: title extraction.  Parsing the title document succeeds and the title
operation returns exactly "Hello". -/
theorem title_extraction :
    to_title titleDocTokens Options.default = .ok "Hello" :=
  rfl

/-- C6: malformed root rejection.  For the unterminated input the token
stream ends after the start token, so parse and each public operation built
on it return an error, never a document. -/
theorem malformed_root_rejection :
    parse unterminatedTokens Options.default = .error Error.unexpectedEnd
    ∧ to_title unterminatedTokens Options.default = .error Error.unexpectedEnd
    ∧ to_preview unterminatedTokens Options.default = .error Error.unexpectedEnd
    ∧ to_html unterminatedTokens Options.default = .error Error.unexpectedEnd :=
  ⟨rfl, rfl, rfl, rfl⟩

/-- C8: body defaults to empty when absent.  Parsing `<mjml></mjml>`
succeeds, the document owns the empty head and an empty body subtree
carrying only the default layout context, and rendering it returns Ok. -/
theorem body_defaults_empty :
    parse emptyDocTokens Options.default =
      .ok { context := none, head := MJHead.empty Options.default,
            body := { attributes := Attributes.empty, children := [],
                      context := some Context.default } }
    ∧ (to_html emptyDocTokens Options.default).isOk = true :=
  ⟨rfl, rfl⟩

/-- C9: comment retention is decided at parse time by the keep-comments
option.  With retention off the column has no comment child and the html has
no trace of "note"; with retention on the column's child list holds the
comment leaf and the html carries it. -/
theorem comment_retention :
    (parse commentDocTokens commentsOff).map firstColumnChildren = .ok (some [])
    ∧ (parse commentDocTokens Options.default).map firstColumnChildren
        = .ok (some [BodyElement.comment " note "])
    ∧ (to_html commentDocTokens commentsOff).map (fun s => strContains s "note") = .ok false
    ∧ (to_html commentDocTokens Options.default).map (fun s => strContains s "note") = .ok true :=
  ⟨rfl, rfl, rfl, rfl⟩

/-- C10: MJBreakpoint::parse never errors; with no width attribute or an
unparsable width it returns Ok with value none, and updating the header with
that value leaves the header unchanged. -/
theorem breakpoint_parse_total (node : Node) (h : Header)
    (hnone : widthAttribute node.attributes = none) :
    (∀ n : Node, (MJBreakpoint.parse n).isOk = true)
    ∧ MJBreakpoint.parse node = .ok ⟨none⟩
    ∧ MJBreakpoint.update_header ⟨none⟩ h = h := by
  refine ⟨fun n => rfl, ?_, rfl⟩
  simp [MJBreakpoint.parse, hnone]

theorem breakpoint_parse_total_witness :
    (∀ n : Node, (MJBreakpoint.parse n).isOk = true)
    ∧ MJBreakpoint.parse ⟨"mj-breakpoint", [("width", "abc")], []⟩ = .ok ⟨none⟩
    ∧ MJBreakpoint.update_header ⟨none⟩ (Header.new Options.default)
        = Header.new Options.default :=
  breakpoint_parse_total ⟨"mj-breakpoint", [("width", "abc")], []⟩
    (Header.new Options.default) (by rfl)

mutual

theorem renderBodyElement_pres : ∀ (e : BodyElement) (h : Header),
    ∃ s, BodyElement.render h e = Except.ok (s, h)
  | BodyElement.comment s, h => ⟨"<!--" ++ s ++ "-->", rfl⟩
  | BodyElement.text s, h => ⟨s, rfl⟩
  | BodyElement.column a c children, h => by
    obtain ⟨s, hs⟩ := renderChildren_pres children h
    refine ⟨"<div class=\"mj-column-per-100\">" ++ s ++ "</div>", ?_⟩
    show (match renderChildren h children with
      | .ok (inner, h2) =>
        Except.ok ("<div class=\"mj-column-per-100\">" ++ inner ++ "</div>", h2)
      | .error e => Except.error e) = _
    rw [hs]

theorem renderChildren_pres : ∀ (cs : List BodyElement) (h : Header),
    ∃ s, renderChildren h cs = Except.ok (s, h)
  | [], h => ⟨"", rfl⟩
  | c :: rest, h => by
    obtain ⟨s1, h1⟩ := renderBodyElement_pres c h
    obtain ⟨s2, h2⟩ := renderChildren_pres rest h
    refine ⟨s1 ++ s2, ?_⟩
    show (match BodyElement.render h c with
      | .ok (s, h2) =>
        match renderChildren h2 rest with
        | .ok (s2, h3) => Except.ok (s ++ s2, h3)
        | .error e => Except.error e
      | .error e => Except.error e) = _
    rw [h1]
    show (match renderChildren h rest with
      | .ok (s2, h3) => Except.ok (s1 ++ s2, h3)
      | .error e => Except.error e) = _
    rw [h2]

end

theorem MJBody_render_pres (b : MJBody) (h : Header) :
    ∃ s, MJBody.render b h = Except.ok (s, h) := by
  obtain ⟨s, hs⟩ := renderChildren_pres b.children h
  refine ⟨"<body><div class=\"mj-body\">" ++ s ++ "</div></body>", ?_⟩
  rw [MJBody.render, hs]

theorem get_html_pres (d : MJMLElement) :
    ∃ s, MJMLElement.get_html d = Except.ok (s, MJHead.get_header d.head) := by
  obtain ⟨s, hs⟩ := MJBody_render_pres d.body (MJHead.get_header d.head)
  refine ⟨"<!doctype html>" ++
    "<html xmlns=\"http://www.w3.org/1999/xhtml\" xmlns:v=\"urn:schemas-microsoft-com:vml\" xmlns:o=\"urn:schemas-microsoft-com:office:office\">" ++
    headHtml (MJHead.get_header d.head) ++ s ++ "</html>", ?_⟩
  show (match MJBody.render d.body (MJHead.get_header d.head) with
    | .ok (bd, header3) =>
      Except.ok ("<!doctype html>" ++
        "<html xmlns=\"http://www.w3.org/1999/xhtml\" xmlns:v=\"urn:schemas-microsoft-com:vml\" xmlns:o=\"urn:schemas-microsoft-com:office:office\">" ++
        headHtml (MJHead.get_header d.head) ++ bd ++ "</html>", header3)
    | .error e => Except.error e) = _
  rw [hs]

/-- C7: render idempotence and context immutability.  Whenever the render of
a built document succeeds, the context coming out of the pass is exactly the
context of the head, so rendering left it unchanged, and a second invocation
with that same context yields the byte-identical output. -/
theorem render_idempotent (d : MJMLElement) (s : String) (hOut : Header)
    (hr : MJMLElement.get_html d = .ok (s, hOut)) :
    hOut = MJHead.get_header d.head
    ∧ MJMLElement.get_html d = .ok (s, MJHead.get_header d.head) := by
  obtain ⟨s2, hs2⟩ := get_html_pres d
  have heq := hr.symm.trans hs2
  rw [Except.ok.injEq, Prod.mk.injEq] at heq
  obtain ⟨hA, hB⟩ := heq
  subst hA
  exact ⟨hB, hs2⟩

theorem render_idempotent_witness :
    MJMLElement.get_html emptyDoc = .ok (emptyDocHtml, MJHead.get_header emptyDoc.head) :=
  (render_idempotent emptyDoc emptyDocHtml (Header.new Options.default) (by rfl)).2
